import Mathlib

/-!
Verification of the SVE SAXPY kernel and its timed benchmark driver.

The program consists of a single C++ translation unit containing:
- `sve_saxpy(a, x, y)`: computes `y[i] = a * x[i] + y[i]` over equal-length
  float vectors using ARM SVE predicated vector intrinsics, with
  predicate-driven tail handling (`svwhilelt_b32`) instead of a scalar
  cleanup loop, and a runtime-queried hardware lane count (`svcntw`);
- `main`: initializes `x` to the ramp `0, 1, ..., N-1` and `y` (saved as
  `y_original`) to the descending ramp `N, N-1, ..., 1`, then repeatedly
  resets `y` from `y_original` and invokes the kernel until a target
  wall-clock duration elapses, finally reporting throughput as
  `(2 * N * iterations) / elapsed_seconds / 1e9` GFLOPS.

Embedding choices. Element values are modelled by `ℚ`: every output element
of the kernel is produced by exactly one fused multiply-add of the same
three inputs, independent of the vector width, so exact arithmetic models
the data flow faithfully. An SVE vector register is modelled as a function
`Nat → ℚ` from lane index to lane value, a predicate register as
`Nat → Bool`, and memory as `List ℚ`. The hardware lane count `svcntw()`
is a runtime parameter `W` with the hardware guarantee `0 < W`. The
`throw std::runtime_error` on mismatched sizes is modelled with
`Except String`. A second instrumented variant of the loop returns the
list of memory accesses (predicated loads and stores actually performed,
i.e. active lanes only) for the bounds-safety and frame claims, and a
fuel-indexed variant of the loop supports the termination claim.
-/

/-- Model of the SVE intrinsic `svwhilelt_b32 i n`: a predicate register
whose lane `j` is active exactly when the global index `i + j` is below
`n`. -/
def svwhilelt_b32 (i n : Nat) : Nat → Bool := fun j => decide (i + j < n)

/-- Model of the SVE intrinsic `svld1_f32 pg mem base`: a predicated load
from `mem` at offset `base`. Active lanes load `mem[base + j]`; inactive
lanes are zeroed and do not access memory. -/
def svld1_f32 (pg : Nat → Bool) (mem : List ℚ) (base : Nat) : Nat → ℚ :=
  fun j => if pg j then mem.getD (base + j) 0 else 0

/-- Model of the SVE intrinsic `svdup_n_f32 a`: a vector register with `a`
in every lane. -/
def svdup_n_f32 (a : ℚ) : Nat → ℚ := fun _ => a

/-- Model of the SVE intrinsic `svmad_f32_z pg zdn zm za`: lanewise fused
multiply-add `zdn * zm + za` with the zeroing predication policy (inactive
lanes are forced to 0). -/
def svmad_f32_z (pg : Nat → Bool) (zdn zm za : Nat → ℚ) : Nat → ℚ :=
  fun j => if pg j then zdn j * zm j + za j else 0

/-- Model of the SVE intrinsic `svst1_f32 pg mem base v` on a machine whose
registers hold `W` lanes: a predicated store writing `v j` to
`mem[base + j]` for each active lane `j < W`, lane by lane; inactive lanes
do not write. -/
def svst1_f32 (W : Nat) (pg : Nat → Bool) (mem : List ℚ) (base : Nat) (v : Nat → ℚ) : List ℚ :=
  (List.range W).foldl (fun acc j => if pg j then acc.set (base + j) (v j) else acc) mem

/-- The `for (uint64_t i = 0; i < n; )` loop of `sve_saxpy`. Each step
builds the predicate `pg = svwhilelt_b32 i n`, loads chunks of `x` and `y`
at offset `i`, computes `result = svmad_f32_z pg (svdup_n_f32 a) vec_x
vec_y`, stores `result` back into `y` at offset `i`, and advances the
cursor by the queried lane count `W = svcntw()` (hardware guarantees
`0 < W`). -/
def sve_saxpy_loop (a : ℚ) (x : List ℚ) (n W : Nat) (hW : 0 < W) (i : Nat) (y : List ℚ) : List ℚ :=
  if i < n then
    sve_saxpy_loop a x n W hW (i + W)
      (svst1_f32 W (svwhilelt_b32 i n) y i
        (svmad_f32_z (svwhilelt_b32 i n) (svdup_n_f32 a)
          (svld1_f32 (svwhilelt_b32 i n) x i) (svld1_f32 (svwhilelt_b32 i n) y i)))
  else y
termination_by n - i
decreasing_by omega

/-- The kernel `sve_saxpy`: throws `std::runtime_error("Vector sizes must
be equal.")` when `x.size() != y.size()`, otherwise runs the predicated
loop over `n = x.size()` starting at cursor 0 and returns the updated
`y`. -/
def sve_saxpy (a : ℚ) (x y : List ℚ) (W : Nat) (hW : 0 < W) : Except String (List ℚ) :=
  if x.length ≠ y.length then Except.error "Vector sizes must be equal."
  else Except.ok (sve_saxpy_loop a x x.length W hW 0 y)

/-- The two arrays the kernel can access: the read-only input `x` and the
in-place accumulator `y`. -/
inductive Arr where
  | X : Arr
  | Y : Arr
deriving DecidableEq

/-- A single memory access performed by the kernel: a predicated-load read
or a predicated-store write of one element of one of the two arrays. -/
inductive Access where
  | load (arr : Arr) (idx : Nat) : Access
  | store (arr : Arr) (idx : Nat) : Access
deriving DecidableEq

/-- The element index touched by an access. -/
def Access.idx : Access → Nat
  | .load _ i => i
  | .store _ i => i

/-- The active lanes of the predicate `svwhilelt_b32 i n` on a `W`-lane
machine: exactly the lanes `j < W` with `i + j < n`. Predicated loads and
stores access memory only on these lanes. -/
def activeLanes (W i n : Nat) : List Nat :=
  (List.range W).filter (fun j => svwhilelt_b32 i n j)

/-- The memory accesses of one iteration of the kernel loop at cursor `i`:
the predicated load of `x`, the predicated load of `y`, and the predicated
store to `y`, each touching index `i + j` for the active lanes `j` only. -/
def stepAccesses (W i n : Nat) : List Access :=
  (activeLanes W i n).map (fun j => Access.load Arr.X (i + j)) ++
    ((activeLanes W i n).map (fun j => Access.load Arr.Y (i + j)) ++
      (activeLanes W i n).map (fun j => Access.store Arr.Y (i + j)))

/-- Instrumented variant of `sve_saxpy_loop` that records the list of
memory accesses the loop performs, in order, mirroring the loop's state
evolution step for step. -/
def sve_saxpy_loop_accesses (a : ℚ) (x : List ℚ) (n W : Nat) (hW : 0 < W) (i : Nat)
    (y : List ℚ) : List Access :=
  if i < n then
    stepAccesses W i n ++
      sve_saxpy_loop_accesses a x n W hW (i + W)
        (svst1_f32 W (svwhilelt_b32 i n) y i
          (svmad_f32_z (svwhilelt_b32 i n) (svdup_n_f32 a)
            (svld1_f32 (svwhilelt_b32 i n) x i) (svld1_f32 (svwhilelt_b32 i n) y i)))
  else []
termination_by n - i
decreasing_by omega

/-- The memory accesses of a full `sve_saxpy` call. The size check comes
first in the source, so on mismatched lengths the exception is thrown
before any element of `x` or `y` is read or written and the trace is
empty. -/
def sve_saxpy_accesses (a : ℚ) (x y : List ℚ) (W : Nat) (hW : 0 < W) : List Access :=
  if x.length ≠ y.length then []
  else sve_saxpy_loop_accesses a x x.length W hW 0 y

/-- Fuel-indexed variant of `sve_saxpy_loop`, structurally recursive on the
fuel; it returns `none` when the fuel runs out before the loop condition
`i < n` fails. Used to state that the loop terminates within `n` steps. -/
def sve_saxpy_loop_fuel (a : ℚ) (x : List ℚ) (n W : Nat) : Nat → Nat → List ℚ → Option (List ℚ)
  | 0, i, y => if i < n then none else some y
  | fuel + 1, i, y =>
    if i < n then
      sve_saxpy_loop_fuel a x n W fuel (i + W)
        (svst1_f32 W (svwhilelt_b32 i n) y i
          (svmad_f32_z (svwhilelt_b32 i n) (svdup_n_f32 a)
            (svld1_f32 (svwhilelt_b32 i n) x i) (svld1_f32 (svwhilelt_b32 i n) y i)))
    else some y

/-- `const size_t VECTOR_SIZE = 10000000` from `main`. -/
def VECTOR_SIZE : Nat := 10000000

/-- `const int TARGET_DURATION_SECONDS = 120` from `main`. -/
def TARGET_DURATION_SECONDS : Nat := 120

/-- The driver's one-time initialization of `x`:
`std::iota(x.begin(), x.end(), 0.0f)`, the ramp `0, 1, ..., N-1`. -/
def init_x (N : Nat) : List ℚ := (List.range N).map (fun i : Nat => (i : ℚ))

/-- The driver's one-time initialization of `y` (saved as `y_original`):
`y[i] = static_cast<float>(VECTOR_SIZE - i)`, the descending ramp
`N, N-1, ..., 1`. -/
def init_y_original (N : Nat) : List ℚ := (List.range N).map (fun i : Nat => ((N - i : Nat) : ℚ))

/-- The contents of `y` after `k` iterations of the driver's timed loop.
Each iteration first executes `y = y_original` (full reset from the saved
baseline) and then `sve_saxpy(a, x, y)`, so the output of every iteration
`k ≥ 1` is the kernel applied to the same saved baseline. -/
def bench_y_after (a : ℚ) (x y_original : List ℚ) (W : Nat) (hW : 0 < W) :
    Nat → Except String (List ℚ)
  | 0 => Except.ok y_original
  | _ + 1 => sve_saxpy a x y_original W hW

/-- The driver's `while (true)` timed loop: each pass resets `y` from
`y_original`, invokes the kernel, increments the iteration counter, and
only then compares the elapsed wall-clock time (given by the oracle
`elapsedAfter`, in seconds, as a function of the iteration count) against
the target duration, breaking once `target ≤ elapsed`. `fuel` bounds the
number of passes so the model is total; a run that would continue past the
fuel yields `none`. Returns the final iteration count and the final `y`. -/
def main_loop (a : ℚ) (x y_original : List ℚ) (W : Nat) (hW : 0 < W)
    (target : Nat) (elapsedAfter : Nat → Nat) :
    Nat → Nat → List ℚ → Option (Nat × List ℚ)
  | 0, _, _ => none
  | fuel + 1, iterations, _y =>
    match sve_saxpy a x y_original W hW with
    | Except.error _ => none
    | Except.ok yNew =>
      if target ≤ elapsedAfter (iterations + 1) then some (iterations + 1, yNew)
      else main_loop a x y_original W hW target elapsedAfter fuel (iterations + 1) yNew

/-- The driver's reported throughput:
`(2.0 * VECTOR_SIZE * iterations) / (total_duration / 1000000.0) / 1e9`,
where `total_duration` is the measured elapsed time in microseconds. -/
def gflops (N iterations total_duration_us : Nat) : ℚ :=
  2 * (N : ℚ) * (iterations : ℚ) / ((total_duration_us : ℚ) / 1000000) / 1000000000

/-- Modelled from the spec: the throughput the spec requires the driver to
report, `(2*N*iterations) / elapsed_seconds` expressed in GFLOPS (i.e.
additionally divided by `10^9`). -/
def spec_gflops (N iterations : Nat) (elapsed_seconds : ℚ) : ℚ :=
  2 * (N : ℚ) * (iterations : ℚ) / elapsed_seconds / 1000000000

/-- `List.getD` after `List.set`: the updated index reads the new value
when it is in bounds; every other index is unchanged. -/
theorem getD_set_rat (l : List ℚ) (m : Nat) (b : ℚ) (k : Nat) :
    (l.set m b).getD k 0 = if m = k ∧ k < l.length then b else l.getD k 0 := by
  by_cases hk : k < l.length
  · rw [List.getD_eq_getElem _ _ (by simpa using hk), List.getElem_set]
    split
    · next h => simp [h, hk]
    · next h => rw [List.getD_eq_getElem _ _ hk]; simp [h]
  · rw [List.getD_eq_default _ _ (by simpa using Nat.le_of_not_lt hk),
       List.getD_eq_default _ _ (Nat.le_of_not_lt hk)]
    simp [hk]

/-- A fold of predicated single-lane stores preserves the length of the
stored-to memory. -/
theorem foldl_maskset_length (pg : Nat → Bool) (base : Nat) (v : Nat → ℚ) :
    ∀ (l : List Nat) (acc : List ℚ),
      (l.foldl (fun acc j => if pg j then acc.set (base + j) (v j) else acc) acc).length
        = acc.length := by
  intro l
  induction l with
  | nil => intro acc; rfl
  | cons hd tl ih =>
    intro acc
    rw [List.foldl_cons, ih]
    split <;> simp

/-- A predicated store preserves the length of memory. -/
theorem svst1_f32_length (W : Nat) (pg : Nat → Bool) (mem : List ℚ) (base : Nat) (v : Nat → ℚ) :
    (svst1_f32 W pg mem base v).length = mem.length :=
  foldl_maskset_length pg base v (List.range W) mem

/-- Elementwise characterization of a predicated store: index `k` holds the
stored lane value `v (k - base)` exactly when `k` falls on an active lane
within bounds, and is untouched otherwise. -/
theorem svst1_f32_getD (W : Nat) (pg : Nat → Bool) (mem : List ℚ) (base : Nat) (v : Nat → ℚ)
    (k : Nat) :
    (svst1_f32 W pg mem base v).getD k 0 =
      if base ≤ k ∧ k < base + W ∧ pg (k - base) = true ∧ k < mem.length
      then v (k - base) else mem.getD k 0 := by
  induction W with
  | zero =>
    rw [svst1_f32]
    simp only [List.range_zero, List.foldl_nil]
    have : ¬(base ≤ k ∧ k < base + 0 ∧ pg (k - base) = true ∧ k < mem.length) := by omega
    rw [if_neg this]
  | succ W ih =>
    rw [svst1_f32, List.range_succ, List.foldl_append, ← svst1_f32]
    simp only [List.foldl_cons, List.foldl_nil]
    by_cases hpg : pg W
    · rw [if_pos hpg, getD_set_rat, svst1_f32_length, ih]
      by_cases hbk : base + W = k ∧ k < mem.length
      · rw [if_pos hbk]
        have h1 : base ≤ k ∧ k < base + (W + 1) ∧ pg (k - base) = true ∧ k < mem.length := by
          refine ⟨by omega, by omega, ?_, hbk.2⟩
          have : k - base = W := by omega
          rw [this]; exact hpg
        rw [if_pos h1]
        have : k - base = W := by omega
        rw [this]
      · rw [if_neg hbk]
        by_cases h2 : base ≤ k ∧ k < base + W ∧ pg (k - base) = true ∧ k < mem.length
        · rw [if_pos h2, if_pos ⟨h2.1, by omega, h2.2.2⟩]
        · rw [if_neg h2]
          by_cases h3 : base ≤ k ∧ k < base + (W + 1) ∧ pg (k - base) = true ∧ k < mem.length
          · exfalso
            rcases h3 with ⟨ha, hb, hc, hd⟩
            rcases Nat.lt_succ_iff_lt_or_eq.mp (by omega : k - base < W + 1) with h | h
            · exact h2 ⟨ha, by omega, hc, hd⟩
            · exact hbk ⟨by omega, hd⟩
          · rw [if_neg h3]
    · rw [if_neg hpg, ih]
      by_cases h2 : base ≤ k ∧ k < base + W ∧ pg (k - base) = true ∧ k < mem.length
      · rw [if_pos h2, if_pos ⟨h2.1, by omega, h2.2.2⟩]
      · rw [if_neg h2]
        by_cases h3 : base ≤ k ∧ k < base + (W + 1) ∧ pg (k - base) = true ∧ k < mem.length
        · exfalso
          rcases h3 with ⟨ha, hb, hc, hd⟩
          rcases Nat.lt_succ_iff_lt_or_eq.mp (by omega : k - base < W + 1) with h | h
          · exact h2 ⟨ha, by omega, hc, hd⟩
          · have : k - base = W := by omega
            rw [this] at hc
            exact hpg hc
        · rw [if_neg h3]

/-- The kernel loop preserves the length of `y`. -/
theorem sve_saxpy_loop_length (a : ℚ) (x : List ℚ) (n W : Nat) (hW : 0 < W) :
    ∀ i y, (sve_saxpy_loop a x n W hW i y).length = y.length := by
  intro i y
  induction i, y using sve_saxpy_loop.induct a x n W hW with
  | case1 i y hin ih =>
    rw [sve_saxpy_loop, if_pos hin]
    rw [ih, svst1_f32_length]
  | case2 i y hin => rw [sve_saxpy_loop, if_neg hin]

/-- Elementwise characterization of the kernel loop started at cursor `i`:
indices in `[i, n)` receive `a * x[k] + y[k]`; all other indices keep
their entry value. -/
theorem sve_saxpy_loop_getD (a : ℚ) (x : List ℚ) (n W : Nat) (hW : 0 < W) :
    ∀ i y, n ≤ y.length → ∀ k,
      (sve_saxpy_loop a x n W hW i y).getD k 0 =
        if i ≤ k ∧ k < n then a * x.getD k 0 + y.getD k 0 else y.getD k 0 := by
  intro i y
  induction i, y using sve_saxpy_loop.induct a x n W hW with
  | case1 i y hin ih =>
    intro hlen k
    rw [sve_saxpy_loop, if_pos hin]
    have hlen2 : n ≤ (svst1_f32 W (svwhilelt_b32 i n) y i
        (svmad_f32_z (svwhilelt_b32 i n) (svdup_n_f32 a)
          (svld1_f32 (svwhilelt_b32 i n) x i) (svld1_f32 (svwhilelt_b32 i n) y i))).length := by
      rw [svst1_f32_length]; exact hlen
    rw [ih hlen2 k]
    have hy2 : ∀ m : Nat, (svst1_f32 W (svwhilelt_b32 i n) y i
        (svmad_f32_z (svwhilelt_b32 i n) (svdup_n_f32 a)
          (svld1_f32 (svwhilelt_b32 i n) x i) (svld1_f32 (svwhilelt_b32 i n) y i))).getD m 0 =
        if i ≤ m ∧ m < min (i + W) n then a * x.getD m 0 + y.getD m 0 else y.getD m 0 := by
      intro m
      rw [svst1_f32_getD]
      by_cases hc : i ≤ m ∧ m < i + W ∧ m < n
      · have hw : svwhilelt_b32 i n (m - i) = true := by
          simp only [svwhilelt_b32, decide_eq_true_eq]; omega
        rw [if_pos ⟨hc.1, hc.2.1, hw, by omega⟩]
        simp only [svmad_f32_z, svld1_f32, svdup_n_f32, hw, if_true]
        have him : i + (m - i) = m := by omega
        rw [him, if_pos ⟨hc.1, by omega⟩]
      · rw [if_neg, if_neg]
        · omega
        · rintro ⟨h1, h2, h3, h4⟩
          simp only [svwhilelt_b32, decide_eq_true_eq] at h3
          exact hc ⟨h1, h2, by omega⟩
    rw [hy2 k]
    split_ifs <;> first | rfl | (exfalso; omega)
  | case2 i y hin =>
    intro hlen k
    rw [sve_saxpy_loop, if_neg hin]
    have : ¬(i ≤ k ∧ k < n) := by omega
    rw [if_neg this]

/-- Every access of one loop iteration targets a global index below `n`,
because predicated loads and stores touch active lanes only and
`svwhilelt_b32` activates lane `j` exactly when `i + j < n`. -/
theorem stepAccesses_idx_lt (W i n : Nat) (acc : Access) (h : acc ∈ stepAccesses W i n) :
    acc.idx < n := by
  rw [stepAccesses, List.mem_append, List.mem_append] at h
  rcases h with h | h | h <;>
  · rcases List.mem_map.mp h with ⟨j, hj, rfl⟩
    rw [activeLanes, List.mem_filter] at hj
    have := hj.2
    simp only [svwhilelt_b32, decide_eq_true_eq] at this
    simpa [Access.idx] using this

/-- No loop iteration ever stores to the read-only array `x`: the only
store instruction in the kernel targets `y`. -/
theorem stepAccesses_no_store_X (W i n k : Nat) :
    Access.store Arr.X k ∉ stepAccesses W i n := by
  intro h
  rw [stepAccesses, List.mem_append, List.mem_append] at h
  rcases h with h | h | h <;>
  · rcases List.mem_map.mp h with ⟨j, hj, hEq⟩
    simp at hEq

/-- Every access of the kernel loop targets an index below `n`. -/
theorem sve_saxpy_loop_accesses_idx_lt (a : ℚ) (x : List ℚ) (n W : Nat) (hW : 0 < W) :
    ∀ i y acc, acc ∈ sve_saxpy_loop_accesses a x n W hW i y → acc.idx < n := by
  intro i y
  induction i, y using sve_saxpy_loop_accesses.induct a x n W hW with
  | case1 i y hin ih =>
    intro acc hacc
    rw [sve_saxpy_loop_accesses, if_pos hin, List.mem_append] at hacc
    rcases hacc with h | h
    · exact stepAccesses_idx_lt W i n acc h
    · exact ih acc h
  | case2 i y hin =>
    intro acc hacc
    rw [sve_saxpy_loop_accesses, if_neg hin] at hacc
    exact absurd hacc (List.not_mem_nil acc)

/-- The kernel loop never stores to `x`. -/
theorem sve_saxpy_loop_accesses_no_store_X (a : ℚ) (x : List ℚ) (n W : Nat) (hW : 0 < W) :
    ∀ i y k, Access.store Arr.X k ∉ sve_saxpy_loop_accesses a x n W hW i y := by
  intro i y
  induction i, y using sve_saxpy_loop_accesses.induct a x n W hW with
  | case1 i y hin ih =>
    intro k hacc
    rw [sve_saxpy_loop_accesses, if_pos hin, List.mem_append] at hacc
    rcases hacc with h | h
    · exact stepAccesses_no_store_X W i n k h
    · exact ih k h
  | case2 i y hin =>
    intro k hacc
    rw [sve_saxpy_loop_accesses, if_neg hin] at hacc
    exact absurd hacc (List.not_mem_nil _)

/-- With at least `n - i` units of fuel the fuel-indexed loop completes and
agrees with the loop: the cursor advances by `W ≥ 1` each step, so the loop
exits after at most `n - i` steps. -/
theorem sve_saxpy_loop_fuel_eq (a : ℚ) (x : List ℚ) (n W : Nat) (hW : 0 < W) :
    ∀ fuel i y, n - i ≤ fuel →
      sve_saxpy_loop_fuel a x n W fuel i y = some (sve_saxpy_loop a x n W hW i y) := by
  intro fuel
  induction fuel with
  | zero =>
    intro i y h
    have hn : ¬ i < n := by omega
    rw [sve_saxpy_loop_fuel, if_neg hn, sve_saxpy_loop, if_neg hn]
  | succ fuel ih =>
    intro i y h
    by_cases hn : i < n
    · rw [sve_saxpy_loop_fuel, if_pos hn, sve_saxpy_loop, if_pos hn]
      exact ih _ _ (by omega)
    · rw [sve_saxpy_loop_fuel, if_neg hn, sve_saxpy_loop, if_neg hn]

/-- Whenever the driver's timed loop finishes starting from iteration
count `k`, the final count exceeds `k`: the elapsed-time check runs only
after a full reset-plus-kernel pass has completed and the counter has been
incremented. -/
theorem main_loop_count (a : ℚ) (x y_original : List ℚ) (W : Nat) (hW : 0 < W)
    (target : Nat) (elapsedAfter : Nat → Nat) :
    ∀ fuel k y c yr,
      main_loop a x y_original W hW target elapsedAfter fuel k y = some (c, yr) →
      k + 1 ≤ c := by
  intro fuel
  induction fuel with
  | zero =>
    intro k y c yr h
    rw [main_loop] at h
    cases h
  | succ fuel ih =>
    intro k y c yr h
    rw [main_loop] at h
    cases hs : sve_saxpy a x y_original W hW with
    | error e => rw [hs] at h; cases h
    | ok yNew =>
      rw [hs] at h
      dsimp only at h
      by_cases ht : target ≤ elapsedAfter (k + 1)
      · rw [if_pos ht] at h
        have : k + 1 = c := congrArg Prod.fst (Option.some.inj h)
        omega
      · rw [if_neg ht] at h
        have := ih (k + 1) yNew c yr h
        omega

/-- Claim C1: for every scalar `a`, every pair of equal-length sequences
`x` and `y` of length `n ≥ 0`, and every hardware lane count `W ≥ 1`,
`sve_saxpy a x y` succeeds and returns a `y` with `y[i] = a * x[i] +
y_old[i]` for all `i < n`, where `y_old` is the value of `y` at entry;
this includes lengths that are not a multiple of `W` (tail correctness)
and `n = 0` (the call is a no-op). -/
theorem sve_saxpy_elementwise_correct (a : ℚ) (x y : List ℚ) (W : Nat) (hW : 0 < W)
    (hlen : x.length = y.length) :
    ∃ yOut, sve_saxpy a x y W hW = Except.ok yOut ∧ yOut.length = y.length ∧
      ∀ i, i < y.length → yOut.getD i 0 = a * x.getD i 0 + y.getD i 0 := by
  refine ⟨sve_saxpy_loop a x x.length W hW 0 y, ?_, ?_, ?_⟩
  · rw [sve_saxpy, if_neg (not_not_intro hlen)]
  · exact sve_saxpy_loop_length a x x.length W hW 0 y
  · intro i hi
    rw [sve_saxpy_loop_getD a x x.length W hW 0 y (le_of_eq hlen) i,
      if_pos ⟨Nat.zero_le i, by omega⟩]

/-- Witness for C1 at `a = 2`, `x = [1, 2, 3]`, `y = [4, 5, 6]`, `W = 2`
(a tail case: 3 is not a multiple of 2). -/
theorem sve_saxpy_elementwise_correct_witness :
    ∃ yOut, sve_saxpy 2 [1, 2, 3] [4, 5, 6] 2 (by decide) = Except.ok yOut ∧
      yOut.length = ([4, 5, 6] : List ℚ).length ∧
      ∀ i, i < ([4, 5, 6] : List ℚ).length →
        yOut.getD i 0 = 2 * ([1, 2, 3] : List ℚ).getD i 0 + ([4, 5, 6] : List ℚ).getD i 0 :=
  sve_saxpy_elementwise_correct 2 [1, 2, 3] [4, 5, 6] 2 (by decide) (by decide)

/-- Claim C2: calling `sve_saxpy` with `x.length ≠ y.length` signals the
`runtime_error` before any element of `x` or `y` is read or written (the
access trace is empty), so `y` is left completely unchanged. -/
theorem sve_saxpy_length_mismatch_error (a : ℚ) (x y : List ℚ) (W : Nat) (hW : 0 < W)
    (hlen : x.length ≠ y.length) :
    sve_saxpy a x y W hW = Except.error "Vector sizes must be equal." ∧
      sve_saxpy_accesses a x y W hW = [] :=
  ⟨by rw [sve_saxpy, if_pos hlen], by rw [sve_saxpy_accesses, if_pos hlen]⟩

/-- Witness for C2 at `x = [1, 2]`, `y = [3]`, `W = 4`. -/
theorem sve_saxpy_length_mismatch_error_witness :
    sve_saxpy 2 [1, 2] [3] 4 (by decide) = Except.error "Vector sizes must be equal." ∧
      sve_saxpy_accesses 2 [1, 2] [3] 4 (by decide) = [] :=
  sve_saxpy_length_mismatch_error 2 [1, 2] [3] 4 (by decide) (by decide)

/-- Claim C3: for every `n ≥ 0` and lane count `W` with `n` not a multiple
of `W`, `sve_saxpy` never reads or writes `x` or `y` at any index `≥ n`:
every load and store is guarded by the active-lane predicate derived from
comparing the global index with `n`. -/
theorem sve_saxpy_no_out_of_bounds_access (a : ℚ) (x y : List ℚ) (W : Nat) (hW : 0 < W)
    (hlen : x.length = y.length) (_hmod : x.length % W ≠ 0) :
    ∀ acc ∈ sve_saxpy_accesses a x y W hW, acc.idx < x.length := by
  intro acc hacc
  rw [sve_saxpy_accesses, if_neg (not_not_intro hlen)] at hacc
  exact sve_saxpy_loop_accesses_idx_lt a x x.length W hW 0 y acc hacc

/-- Witness for C3 at `n = 5`, `W = 4` (5 is not a multiple of 4),
instantiated at the tail-chunk load of `x[4]`, an access the kernel
actually performs. -/
theorem sve_saxpy_no_out_of_bounds_access_witness :
    Access.idx (Access.load Arr.X 4) < ([1, 2, 3, 4, 5] : List ℚ).length :=
  sve_saxpy_no_out_of_bounds_access 2 [1, 2, 3, 4, 5] [6, 7, 8, 9, 10] 4 (by decide)
    (by decide) (by decide) (Access.load Arr.X 4)
    (by simp +decide [sve_saxpy_accesses, sve_saxpy_loop_accesses, stepAccesses, activeLanes,
      svwhilelt_b32, List.range_succ])

/-- Claim C4: the `sve_saxpy` loop terminates for every input length
`n ≥ 0`: the cursor starts at 0 and advances by the queried lane count
`W ≥ 1` each step, so `n` units of fuel always suffice for the
fuel-indexed loop to complete (never `none`) and agree with the loop,
which exits as soon as `i ≥ n` fails the loop condition. -/
theorem sve_saxpy_loop_terminates (a : ℚ) (x y : List ℚ) (n W : Nat) (hW : 0 < W)
    (fuel : Nat) (hfuel : n ≤ fuel) :
    sve_saxpy_loop_fuel a x n W fuel 0 y = some (sve_saxpy_loop a x n W hW 0 y) :=
  sve_saxpy_loop_fuel_eq a x n W hW fuel 0 y (by omega)

/-- Witness for C4 at `n = 3`, `W = 2`, `fuel = 3`. -/
theorem sve_saxpy_loop_terminates_witness :
    sve_saxpy_loop_fuel 2 [1, 2, 3] 3 2 3 0 [4, 5, 6] =
      some (sve_saxpy_loop 2 [1, 2, 3] 3 2 (by decide) 0 [4, 5, 6]) :=
  sve_saxpy_loop_terminates 2 [1, 2, 3] [4, 5, 6] 3 2 (by decide) 3 (by decide)

/-- Claim C5: for `a = 2.5`, `x = [0, 1, 2, 3, 4]`, `y = [5, 4, 3, 2, 1]`
and any lane count `W ≥ 1`, `sve_saxpy` leaves `y` equal to
`[5.0, 6.5, 8.0, 9.5, 11.0]`. -/
theorem sve_saxpy_sample_scenario (W : Nat) (hW : 0 < W) :
    sve_saxpy (5/2) [0, 1, 2, 3, 4] [5, 4, 3, 2, 1] W hW =
      Except.ok [5, 13/2, 8, 19/2, 11] := by
  rw [sve_saxpy,
    if_neg (not_not_intro
      (by decide : ([0, 1, 2, 3, 4] : List ℚ).length = ([5, 4, 3, 2, 1] : List ℚ).length))]
  congr 1
  apply List.ext_getElem
  · rw [sve_saxpy_loop_length]; rfl
  · intro k h1 h2
    have hk5 : k < 5 := by
      rw [sve_saxpy_loop_length] at h1
      exact h1
    rw [← List.getD_eq_getElem _ 0 h1, ← List.getD_eq_getElem _ 0 h2,
      sve_saxpy_loop_getD (5/2) [0, 1, 2, 3, 4] ([0, 1, 2, 3, 4] : List ℚ).length W hW 0
        [5, 4, 3, 2, 1] (by decide) k,
      if_pos ⟨Nat.zero_le k, hk5⟩]
    interval_cases k <;> norm_num [List.getD]

/-- Witness for C5 at `W = 4`. -/
theorem sve_saxpy_sample_scenario_witness :
    sve_saxpy (5/2) [0, 1, 2, 3, 4] [5, 4, 3, 2, 1] 4 (by decide) =
      Except.ok [5, 13/2, 8, 19/2, 11] :=
  sve_saxpy_sample_scenario 4 (by decide)

/-- Claim C6: the kernel is deterministic across benchmark iterations:
since each iteration of the driver's loop restores `y` from the same saved
baseline `y_original` before calling the kernel, iterations `j` and `k`
(for any `j, k ≥ 1`) produce element-wise identical output in `y`. -/
theorem sve_saxpy_iterations_deterministic (a : ℚ) (x y_original : List ℚ) (W : Nat)
    (hW : 0 < W) (j k : Nat) (hj : 1 ≤ j) (hk : 1 ≤ k) :
    bench_y_after a x y_original W hW j = bench_y_after a x y_original W hW k := by
  obtain ⟨j2, rfl⟩ : ∃ j2, j = j2 + 1 := ⟨j - 1, by omega⟩
  obtain ⟨k2, rfl⟩ : ∃ k2, k = k2 + 1 := ⟨k - 1, by omega⟩
  rfl

/-- Witness for C6: iterations 1 and 2 agree on a concrete input. -/
theorem sve_saxpy_iterations_deterministic_witness :
    bench_y_after 2 [1, 2, 3] [4, 5, 6] 4 (by decide) 1 =
      bench_y_after 2 [1, 2, 3] [4, 5, 6] 4 (by decide) 2 :=
  sve_saxpy_iterations_deterministic 2 [1, 2, 3] [4, 5, 6] 4 (by decide) 1 2
    (by decide) (by decide)

/-- Claim C7: `sve_saxpy` mutates only `y`: its access trace contains no
store to the read-only input `x` for any call, so `x` (and, in the driver,
the baseline `y_original` passed as the read-only `x`-side of each
iteration) is unchanged by every call. -/
theorem sve_saxpy_mutates_only_y (a : ℚ) (x y : List ℚ) (W : Nat) (hW : 0 < W) (k : Nat) :
    Access.store Arr.X k ∉ sve_saxpy_accesses a x y W hW := by
  rw [sve_saxpy_accesses]
  split
  · exact List.not_mem_nil _
  · exact sve_saxpy_loop_accesses_no_store_X a x x.length W hW 0 y k

/-- Witness for C7 at a concrete call and index. -/
theorem sve_saxpy_mutates_only_y_witness :
    Access.store Arr.X 0 ∉ sve_saxpy_accesses 2 [1, 2, 3] [4, 5, 6] 2 (by decide) :=
  sve_saxpy_mutates_only_y 2 [1, 2, 3] [4, 5, 6] 2 (by decide) 0

/-- Claim C8: the driver initializes `x` as the ramp `x[i] = i` for
`i ∈ [0, N)` and `y_original` as the descending ramp
`y_original[i] = N - i` (values `N` down to 1), each of length `N`. -/
theorem main_init_ramps (N : Nat) :
    (init_x N).length = N ∧ (init_y_original N).length = N ∧
      (∀ i, i < N → (init_x N).getD i 0 = (i : ℚ)) ∧
      (∀ i, i < N → (init_y_original N).getD i 0 = ((N - i : Nat) : ℚ)) := by
  refine ⟨by rw [init_x, List.length_map, List.length_range],
    by rw [init_y_original, List.length_map, List.length_range], ?_, ?_⟩
  · intro i hi
    rw [init_x, List.getD_eq_getElem _ _
        (by rw [List.length_map, List.length_range]; exact hi),
      List.getElem_map, List.getElem_range]
  · intro i hi
    rw [init_y_original, List.getD_eq_getElem _ _
        (by rw [List.length_map, List.length_range]; exact hi),
      List.getElem_map, List.getElem_range]

/-- Witness for C8 at `N = 5`: `x[2] = 2` and `y_original[0] = 5`. -/
theorem main_init_ramps_witness :
    (init_x 5).getD 2 0 = (2 : ℚ) ∧ (init_y_original 5).getD 0 0 = (5 : ℚ) :=
  ⟨(main_init_ramps 5).2.2.1 2 (by decide), (main_init_ramps 5).2.2.2 0 (by decide)⟩

/-- Claim C9: the throughput the driver reports equals
`(2 * N * iterations) / elapsed_seconds` expressed in GFLOPS (further
divided by `10^9`), where `elapsed_seconds` is the measured elapsed time
`total_duration_us / 10^6`; equivalently, for a nonzero measured duration,
the reported value times `10^9` times the elapsed seconds recovers the
total FLOP count `2 * N * iterations`. -/
theorem gflops_formula (N iterations total_duration_us : Nat) :
    gflops N iterations total_duration_us =
      spec_gflops N iterations ((total_duration_us : ℚ) / 1000000) ∧
      ((total_duration_us : ℚ) ≠ 0 →
        gflops N iterations total_duration_us * 1000000000 *
          ((total_duration_us : ℚ) / 1000000) = 2 * (N : ℚ) * (iterations : ℚ)) := by
  refine ⟨rfl, ?_⟩
  intro hd
  rw [gflops]
  field_simp
  ring

/-- Witness for C9 at `N = 10`, `iterations = 3`, `total_duration_us =
2000000` (2 seconds): the reported GFLOPS recovers `2 * 10 * 3` FLOPs. -/
theorem gflops_formula_witness :
    gflops 10 3 2000000 * 1000000000 * (((2000000 : ℕ) : ℚ) / 1000000) =
      2 * ((10 : ℕ) : ℚ) * ((3 : ℕ) : ℚ) :=
  (gflops_formula 10 3 2000000).2 (by norm_num)

/-- Claim C10: the driver's timed loop checks the elapsed time only after
a full reset-plus-kernel pass has completed, so every completed run
performs at least one kernel invocation and reports an iteration count of
at least 1 — for every target duration, and in particular for target 0,
where the loop stops with exactly one iteration. -/
theorem main_loop_at_least_one_iteration (a : ℚ) (x y_original yinit : List ℚ) (W : Nat)
    (hW : 0 < W) (target : Nat) (elapsedAfter : Nat → Nat) (fuel : Nat) :
    (∀ c yr, main_loop a x y_original W hW target elapsedAfter fuel 0 yinit = some (c, yr) →
      1 ≤ c) ∧
    (x.length = y_original.length → 0 < fuel →
      ∃ yr, main_loop a x y_original W hW 0 elapsedAfter fuel 0 yinit = some (1, yr)) := by
  constructor
  · intro c yr h
    exact main_loop_count a x y_original W hW target elapsedAfter fuel 0 yinit c yr h
  · intro hlen hfuel
    obtain ⟨fuel2, rfl⟩ : ∃ fuel2, fuel = fuel2 + 1 := ⟨fuel - 1, by omega⟩
    refine ⟨sve_saxpy_loop a x x.length W hW 0 y_original, ?_⟩
    rw [main_loop, sve_saxpy, if_neg (not_not_intro hlen)]
    dsimp only
    rw [if_pos (Nat.zero_le _)]

/-- Witness for C10: with target duration 0 the loop performs exactly one
reset-plus-kernel iteration on a concrete input. -/
theorem main_loop_at_least_one_iteration_witness :
    ∃ yr, main_loop 2 [1, 2] [3, 4] 2 (by decide) 0 (fun _ => 0) 1 0 [3, 4] = some (1, yr) :=
  (main_loop_at_least_one_iteration 2 [1, 2] [3, 4] [3, 4] 2 (by decide) 0 (fun _ => 0) 1).2
    (by decide) (by decide)
